import Mathlib

/-!
Verification development for the image-conversion workflow of the portfolio
repository: the client batch controller (`ImageConverter` component:
`handleFileSelect`, `handleBatchConvert`, `handleSingleDownload`,
`handleZipDownload`, `handleReset`) and the server conversion handler
(`POST` in `src/app/api/convert-image/route.js`).

The embedding is shallow: browser `File` objects become `JSFile` records,
component state becomes an explicit `ConverterState` record, the network
round-trip of one conversion request is an oracle
`respond : JSFile → Except String (List Nat)` (`.ok bytes` models a 2xx
response with a body blob, `.error msg` models a thrown fetch error or the
`Conversion failed for ...` error thrown on a non-ok response), and the
Sharp image library is an oracle `SharpModel` following the collaborator
contract (metadata probe + per-format transcode). Object URLs are modelled
by a counter allocating fresh natural-number handles.
-/

/-- Model of a browser `File`: name, MIME type and byte size. -/
structure JSFile where
  name : String
  type : String
  size : Nat
deriving Repr, DecidableEq

/-- Model of one element of the `convertedImages` state array: a success
outcome produced by `handleBatchConvert` (`originalName`, `convertedBlob`,
`convertedUrl`). -/
structure ConvertedImage where
  originalName : String
  convertedBlob : List Nat
  convertedUrl : Nat
deriving Repr, DecidableEq

/-- Model of one element of the local `failedConversions` array of
`handleBatchConvert`: a failure outcome (`originalName`, `error`). -/
structure FailedConversion where
  originalName : String
  error : String
deriving Repr, DecidableEq

/-- Model of the `ImageConverter` component state (the `useState` cells the
claims are about), together with the browser-side object-URL bookkeeping:
`revokedUrls` records every handle passed to `URL.revokeObjectURL`, and
`nextUrl` is the allocator for fresh handles from `URL.createObjectURL`. -/
structure ConverterState where
  selectedFiles : List JSFile
  convertedImages : List ConvertedImage
  targetFormat : String
  conversionProgress : ℚ
  error : String
  success : String
  nextUrl : Nat
  revokedUrls : List Nat
deriving Repr

/-- The `supportedFormats` MIME allow-list of the component. -/
def supportedFormats : List String :=
  ["image/jpeg", "image/jpg", "image/png", "image/webp", "image/gif",
   "image/bmp", "image/tiff"]

/-- `isValidImageFile` from the component: membership of the file's MIME
type in the allow-list. -/
def isValidImageFile (f : JSFile) : Bool :=
  supportedFormats.contains f.type

/-- The per-file size ceiling `maxSize = 10 * 1024 * 1024` (10MB). -/
def maxSize : Nat := 10 * 1024 * 1024

/-- `toLowerCase()` (character-wise ASCII case mapping, which is all the
format strings need). -/
def lowerAscii (s : String) : String :=
  String.mk (s.toList.map Char.toLower)

/-- `toUpperCase()` (character-wise ASCII case mapping). -/
def upperAscii (s : String) : String :=
  String.mk (s.toList.map Char.toUpper)


/-- The `forEach` classification loop of `handleFileSelect`: splits a file
list into (validFiles, invalidFiles, oversizedFiles), preserving order.
A file with an unsupported MIME type goes to `invalidFiles` (by name), an
image file larger than `maxSize` goes to `oversizedFiles` (by name), every
other file goes to `validFiles`. -/
def classifyFiles : List JSFile → List JSFile × List String × List String
  | [] => ([], [], [])
  | f :: fs =>
    let r := classifyFiles fs
    if ¬ isValidImageFile f then (r.1, f.name :: r.2.1, r.2.2)
    else if f.size > maxSize then (r.1, r.2.1, f.name :: r.2.2)
    else (f :: r.1, r.2.1, r.2.2)

/-- `handleFileSelect` (Ingest): clears messages, the converted-results set
and the progress, classifies the incoming files, reports invalid and
oversized ones through the error message, fails without touching
`selectedFiles` when no valid file remains or when more than 100 valid
files were given, and otherwise replaces `selectedFiles` with the valid
files. -/
def handleFileSelect (st : ConverterState) (files : List JSFile) : ConverterState :=
  let st0 : ConverterState :=
    { st with error := "", success := "", convertedImages := [], conversionProgress := 0 }
  let cls := classifyFiles files
  let validFiles := cls.1
  let invalidFiles := cls.2.1
  let oversizedFiles := cls.2.2
  let st1 :=
    if invalidFiles.isEmpty then st0
    else { st0 with error := "Invalid file types: " ++ String.intercalate ", " invalidFiles
                      ++ ". Please select only image files." }
  let st2 :=
    if oversizedFiles.isEmpty then st1
    else if st1.error.isEmpty then
      { st1 with error := "Files too large (>10MB): " ++ String.intercalate ", " oversizedFiles }
    else
      { st1 with error := st1.error ++ " Files too large (>10MB): "
                    ++ String.intercalate ", " oversizedFiles }
  if validFiles.length = 0 then
    if invalidFiles.isEmpty ∧ oversizedFiles.isEmpty then
      { st2 with error := "No files selected." }
    else st2
  else if validFiles.length > 100 then
    { st2 with error := "Too many files selected. Please select 100 files or fewer." }
  else
    { st2 with selectedFiles := validFiles,
               success := toString validFiles.length ++ " image"
                 ++ (if validFiles.length > 1 then "s" else "") ++ " uploaded successfully!" }

/-- Result of processing one group of (at most 3) files in parallel:
the successes and failures in arrival order of the `forEach` push loop,
and the object-URL allocator state. -/
structure GroupResult where
  converted : List ConvertedImage
  failed : List FailedConversion
  nextUrl : Nat
deriving Repr

/-- One group of `handleBatchConvert`: each file is sent through the
`respond` oracle (`fetch` + response handling); an `.ok` response yields a
success record with a fresh object URL, an `.error` (network error or the
error thrown on a non-ok response) is caught per item and yields a failure
record carrying `error.message`. `Promise.all` preserves the order of the
mapped promises, so results are collected in batch order. -/
def processGroup (respond : JSFile → Except String (List Nat)) :
    Nat → List JSFile → GroupResult
  | url, [] => ⟨[], [], url⟩
  | url, f :: fs =>
    match respond f with
    | .ok blob =>
      let r := processGroup respond (url + 1) fs
      ⟨⟨f.name, blob, url⟩ :: r.converted, r.failed, r.nextUrl⟩
    | .error e =>
      let r := processGroup respond url fs
      ⟨r.converted, ⟨f.name, e⟩ :: r.failed, r.nextUrl⟩

/-- Accumulated result of the group loop of `handleBatchConvert`:
`convertedResults`, `failedConversions`, and the list of values assigned to
`conversionProgress` after each group (in order). -/
structure BatchLoopResult where
  converted : List ConvertedImage
  failed : List FailedConversion
  progressUpdates : List ℚ
  nextUrl : Nat
deriving Repr

/-- The progress value set after a group:
`Math.min((completedCount / total) * 100, 100)`. -/
def progressValue (total completed : Nat) : ℚ :=
  min (((completed : ℚ) / (total : ℚ)) * 100) 100

/-- The `for (let i = 0; i < selectedFiles.length; i += batchSize)` loop of
`handleBatchConvert` with `batchSize = 3`: each iteration takes the slice
of up to 3 pending files, awaits the whole group (the next group starts
only after `Promise.all` of the current one settles, which the sequential
recursion reflects), appends the group's successes and failures, and
records the progress update `min((i + batch.length)/total * 100, 100)`. -/
def processBatchFrom (respond : JSFile → Except String (List Nat)) (total : Nat) :
    Nat → Nat → List JSFile → BatchLoopResult
  | url, _, [] => ⟨[], [], [], url⟩
  | url, done, [a] =>
    let g := processGroup respond url [a]
    ⟨g.converted, g.failed, [progressValue total (done + 1)], g.nextUrl⟩
  | url, done, [a, b] =>
    let g := processGroup respond url [a, b]
    ⟨g.converted, g.failed, [progressValue total (done + 2)], g.nextUrl⟩
  | url, done, a :: b :: c :: rest =>
    let g := processGroup respond url [a, b, c]
    let r := processBatchFrom respond total g.nextUrl (done + 3) rest
    ⟨g.converted ++ r.converted, g.failed ++ r.failed,
     progressValue total (done + 3) :: r.progressUpdates, r.nextUrl⟩

/-- A complete `handleBatchConvert` run: the final component state plus the
outcome lists and the progress-update trace of the run. -/
structure BatchRun where
  state : ConverterState
  convertedResults : List ConvertedImage
  failedConversions : List FailedConversion
  progressUpdates : List ℚ
deriving Repr

/-- `handleBatchConvert` (Convert): bails out with an error when no files
are selected; otherwise clears messages, results and progress, runs the
group loop, stores the successes in `convertedImages`, and sets the
summary messages from the success/failure split. -/
def handleBatchConvert (respond : JSFile → Except String (List Nat))
    (st : ConverterState) : BatchRun :=
  if st.selectedFiles.isEmpty then
    ⟨{ st with error := "Please select images first" }, [], [], []⟩
  else
    let st0 : ConverterState :=
      { st with error := "", success := "", convertedImages := [], conversionProgress := 0 }
    let r := processBatchFrom respond st.selectedFiles.length st.nextUrl 0 st.selectedFiles
    let st1 : ConverterState :=
      { st0 with convertedImages := r.converted, nextUrl := r.nextUrl,
                 conversionProgress := r.progressUpdates.getLastD 0 }
    let allOkMsg := "All " ++ toString r.converted.length
      ++ " images successfully converted to " ++ upperAscii st.targetFormat ++ "!"
    let partialOkMsg := toString r.converted.length
      ++ " images converted successfully. " ++ toString r.failed.length ++ " failed."
    let partialErrMsg := "Failed conversions: "
      ++ String.intercalate ", " (r.failed.map (·.originalName))
    let st2 : ConverterState :=
      if r.converted ≠ [] ∧ r.failed = [] then
        { st1 with success := allOkMsg }
      else if r.converted ≠ [] ∧ r.failed ≠ [] then
        { st1 with success := partialOkMsg, error := partialErrMsg }
      else
        { st1 with error := "All conversions failed. Please try again." }
    ⟨st2, r.converted, r.failed, r.progressUpdates⟩

/-- `name.split(\x27.\x27)` on the character list: split at every dot. -/
def splitOnDot : List Char → List (List Char)
  | [] => [[]]
  | c :: cs =>
    if c = '.' then [] :: splitOnDot cs
    else
      match splitOnDot cs with
      | [] => [[c]]
      | g :: gs => (c :: g) :: gs

/-- `name.split(\x27.\x27).slice(0, -1).join(\x27.\x27)`: the
extension-stripping step shared by `handleSingleDownload` and
`handleZipDownload`. -/
def stripExtension (name : String) : String :=
  String.intercalate "." (((splitOnDot name.toList).dropLast).map (fun l => String.mk l))

/-- The per-file naming rule used by both download paths:
`{stripExtension(originalName)}_converted.{targetFormat}`. -/
def downloadFileName (originalName targetFormat : String) : String :=
  stripExtension originalName ++ "_converted." ++ targetFormat

/-- `handleSingleDownload`: the (download filename, href handle) pair of
the transient anchor element it creates. -/
def handleSingleDownload (img : ConvertedImage) (targetFormat : String) : String × Nat :=
  (downloadFileName img.originalName targetFormat, img.convertedUrl)

/-- One entry of the generated ZIP archive. -/
structure ZipEntry where
  name : String
  data : List Nat
deriving Repr, DecidableEq

/-- `folder.file(fileName, blob)` of JSZip: entries are keyed by name, so a
repeated name overwrites the earlier entry instead of adding a second one. -/
def zipAddFile (entries : List ZipEntry) (n : String) (d : List Nat) : List ZipEntry :=
  if entries.any (fun e => e.name = n) then
    entries.map (fun e => if e.name = n then ⟨n, d⟩ else e)
  else entries ++ [⟨n, d⟩]

/-- The archive produced by `handleZipDownload`: the fixed subfolder name
and its entries. -/
structure ZipArchive where
  folderName : String
  entries : List ZipEntry
deriving Repr, DecidableEq

/-- `handleZipDownload` (DownloadArchive): `none` when there is no
converted image (the code only sets an error message); otherwise the
archive built by adding every converted image under the
`converted_images` folder with the shared naming rule, paired with the
download name `converted_images_{targetFormat}.zip`. -/
def handleZipDownload (st : ConverterState) : Option (ZipArchive × String) :=
  if st.convertedImages.isEmpty then none
  else
    let entries := st.convertedImages.foldl
      (fun acc img =>
        zipAddFile acc (downloadFileName img.originalName st.targetFormat) img.convertedBlob)
      []
    some (⟨"converted_images", entries⟩, "converted_images_" ++ st.targetFormat ++ ".zip")

/-- `handleReset` (Reset): clears the selection, results, messages and
progress, and calls `URL.revokeObjectURL` on the object URL of every
previously converted image (the closure still holds the pre-reset
`convertedImages` array). -/
def handleReset (st : ConverterState) : ConverterState :=
  { st with selectedFiles := [], convertedImages := [], error := "", success := "",
            conversionProgress := 0,
            revokedUrls := st.revokedUrls ++ st.convertedImages.map (·.convertedUrl) }

/-! Server conversion handler (`src/app/api/convert-image/route.js`). -/

/-- Character-list test: does the second list start with the first? -/
def charsStartWith : List Char → List Char → Bool
  | [], _ => true
  | _ :: _, [] => false
  | p :: ps, h :: hs => p = h && charsStartWith ps hs

/-- Character-list test: does the first list occur contiguously inside the
second? -/
def charsContain (pat : List Char) : List Char → Bool
  | [] => charsStartWith pat []
  | h :: hs => charsStartWith pat (h :: hs) || charsContain pat hs

/-- Substring test modelling `String.prototype.includes`. -/
def containsSub (hay pat : String) : Bool :=
  charsContain pat.toList hay.toList

/-- A value returned by `formData.get`: a binary `File` or a string field. -/
inductive FormField where
  | file (f : JSFile)
  | str (s : String)
deriving Repr, DecidableEq

/-- The parts of the inbound request the handler reads: the `content-type`
header and the `image` and `format` form fields (`none` models a missing
header/field, for which `get` returns `null`). -/
structure ApiRequest where
  contentType : Option String
  image : Option FormField
  format : Option String
deriving Repr, DecidableEq

/-- Oracle for the Sharp library on this request's image buffer, following
the collaborator contract: `metadata` either throws (`.error msg`) or
returns `metadata.format` (`none` when Sharp reports no format), and
`transcode fmt` either throws (`.error msg`, the message of the rethrown
`sharpError`) or returns the transcoded bytes. -/
structure SharpModel where
  metadata : Except String (Option String)
  transcode : String → Except String (List Nat)

/-- A response body: a JSON error payload `{ error, details? }` or a binary
body with its `Content-Type`, `Content-Length` and `Content-Disposition`
headers. -/
inductive ResponseBody where
  | jsonError (message : String) (details : Option String)
  | binary (data : List Nat) (contentType : String) (contentLength : Nat)
      (contentDisposition : String)
deriving Repr, DecidableEq

/-- A handler response: HTTP status plus body. -/
structure ApiResponse where
  status : Nat
  body : ResponseBody
deriving Repr, DecidableEq

/-- The content-type guard of `POST`: the header must exist and contain
`multipart/form-data` or `multipart`. -/
def hasMultipartData (ct : Option String) : Bool :=
  match ct with
  | some c => containsSub c "multipart/form-data" || containsSub c "multipart"
  | none => false

/-- `formData.get(\x27format\x27) || \x27webp\x27`: a missing field
(`null`) and the empty string are both falsy, so both fall back to
`webp`. -/
def effectiveFormat (fmtField : Option String) : String :=
  match fmtField with
  | none => "webp"
  | some s => if s = "" then "webp" else s

/-- The server's `supportedFormats` allow-list for the target format. -/
def serverSupportedFormats : List String := ["jpeg", "jpg", "png", "webp"]

/-- The `!imageFile` truthiness test: missing field, or an empty string
field (the empty string is falsy in JavaScript). -/
def imageFieldMissing (image : Option FormField) : Bool :=
  match image with
  | none => true
  | some (.str s) => s = ""
  | some (.file _) => false

/-- The `mimeType` switch of `POST` (its cases are exactly the four
supported formats; the guard before the switch makes other inputs
unreachable, modelled by the final else). -/
def mimeTypeFor (format : String) : String :=
  if format = "jpeg" ∨ format = "jpg" then "image/jpeg"
  else if format = "png" then "image/png"
  else "image/webp"

/-- The `catch` block of `POST`: dispatches on substrings of
`error.message` — the two Sharp decode messages and the rethrown
`Sharp processing failed` prefix map to 400, timeout messages to 408, and
everything else to the generic 500 whose `details` field carries the
internal message only when `NODE_ENV` is `development`. -/
def postErrorResponse (env : String) (msg : String) : ApiResponse :=
  if containsSub msg "Input file contains unsupported image format" then
    ⟨400, .jsonError "Unsupported image format. Please upload a valid image file." none⟩
  else if containsSub msg "Input buffer contains unsupported image format" then
    ⟨400, .jsonError "Invalid or corrupted image file. Please try a different image." none⟩
  else if containsSub msg "Sharp processing failed" then
    ⟨400, .jsonError "Image processing failed. The image may be corrupted or in an unsupported format." none⟩
  else if containsSub msg "Request timeout" || containsSub msg "timeout" then
    ⟨408, .jsonError "Request timeout. Please try with a smaller image or try again later." none⟩
  else
    ⟨500, .jsonError "Failed to process image. Please try again with a different image."
      (if env = "development" then some msg else none)⟩

/-- `POST` of `route.js`: content-type guard, image-field checks, target
format validation (defaulting to webp), metadata probe, per-format
transcode (whose exception is rethrown with the `Sharp processing failed:`
prefix and handled by the catch block), and the 200 binary response. `env`
is `process.env.NODE_ENV`; `sharp` is the library oracle for this
request's image buffer. -/
def POST (env : String) (sharp : SharpModel) (req : ApiRequest) : ApiResponse :=
  if hasMultipartData req.contentType = false then
    ⟨400, .jsonError "Invalid content type. Expected multipart/form-data." none⟩
  else if imageFieldMissing req.image then
    ⟨400, .jsonError "No image file provided in form data" none⟩
  else
    match req.image with
    | some (.file _) =>
      let targetFormat := effectiveFormat req.format
      if serverSupportedFormats.contains (lowerAscii targetFormat) = false then
        ⟨400, .jsonError "Unsupported target format" none⟩
      else
        match sharp.metadata with
        | .error m => postErrorResponse env m
        | .ok none => ⟨400, .jsonError "Invalid image file" none⟩
        | .ok (some _) =>
          let format := lowerAscii targetFormat
          if format = "jpeg" ∨ format = "jpg" ∨ format = "png" ∨ format = "webp" then
            match sharp.transcode format with
            | .error m => postErrorResponse env ("Sharp processing failed: " ++ m)
            | .ok buf =>
              ⟨200, .binary buf (mimeTypeFor format) buf.length
                ("inline; filename=\"converted." ++ format ++ "\"")⟩
          else ⟨400, .jsonError "Unsupported format" none⟩
    | _ => ⟨400, .jsonError "Invalid image file format" none⟩

/-! Concrete fixtures used to evaluate the development on specific inputs. -/

/-- A small valid PNG upload. -/
def fileA : JSFile := ⟨"a.png", "image/png", 5⟩

/-- A second valid PNG upload. -/
def fileB : JSFile := ⟨"b.png", "image/png", 7⟩

/-- A file with an unsupported MIME type. -/
def fileBad : JSFile := ⟨"notes.txt", "text/plain", 5⟩

/-- A valid image exactly at the 10MB size ceiling. -/
def fileAtCap : JSFile := ⟨"cap.png", "image/png", 10485760⟩

/-- A valid image one byte over the 10MB size ceiling. -/
def fileOverCap : JSFile := ⟨"over.png", "image/png", 10485761⟩

/-- The freshly mounted component state. -/
def emptyState : ConverterState := ⟨[], [], "webp", 0, "", "", 0, []⟩

/-- A request oracle for which every conversion succeeds. -/
def respondAll : JSFile → Except String (List Nat) := fun _ => .ok [1]

/-- A request oracle failing exactly on `b.png` (non-ok response). -/
def respondFailB : JSFile → Except String (List Nat) :=
  fun f => if f.name = "b.png" then .error "Conversion failed for b.png" else .ok [1]

/-- State with the two-file batch `[a.png, b.png]` selected. -/
def stateAB : ConverterState := { emptyState with selectedFiles := [fileA, fileB] }

/-- A success outcome for `a.png` holding object URL 0. -/
def imgDotA : ConvertedImage := ⟨"a.png", [1], 0⟩

/-- A success outcome for `a.jpg` (same base name as `a.png`). -/
def imgDotAJpg : ConvertedImage := ⟨"a.jpg", [2], 1⟩

/-- A success outcome whose original name has no dot. -/
def imgNoDot : ConvertedImage := ⟨"photo", [3], 2⟩

/-- State holding one success outcome (object URL 0). -/
def stateWithResultA : ConverterState := { emptyState with convertedImages := [imgDotA] }

/-- State holding success outcomes for `a.png` and `a.jpg`. -/
def stateCollide : ConverterState :=
  { emptyState with convertedImages := [imgDotA, imgDotAJpg] }

/-- 101 valid files plus one invalid one: every valid file passes per-file
validation but the count exceeds the 100-file ceiling. -/
def files102 : List JSFile := List.replicate 101 fileA ++ [fileBad]

/-- A Sharp oracle for which decode and transcode succeed. -/
def sharpOK : SharpModel := ⟨.ok (some "png"), fun _ => .ok [7]⟩

/-- A Sharp oracle whose transcode step throws. -/
def sharpBoom : SharpModel := ⟨.ok (some "png"), fun _ => .error "boom"⟩

/-- A well-formed conversion request for `a.png` targeting webp. -/
def reqOK : ApiRequest := ⟨some "multipart/form-data", some (.file fileA), some "webp"⟩

/-- A well-formed conversion request whose `format` field is present but
empty. -/
def reqEmptyFmt : ApiRequest := ⟨some "multipart/form-data", some (.file fileA), some ""⟩

/-- A well-formed conversion request asking for the unsupported target
`gif`. -/
def reqBadFmt : ApiRequest := ⟨some "multipart/form-data", some (.file fileA), some "gif"⟩

/-! Lemmas about one group of `handleBatchConvert`. -/

theorem processGroup_length (respond : JSFile → Except String (List Nat)) (url : Nat)
    (batch : List JSFile) :
    (processGroup respond url batch).converted.length
      + (processGroup respond url batch).failed.length = batch.length := by
  induction batch generalizing url with
  | nil => simp [processGroup]
  | cons f fs ih =>
    cases h : respond f with
    | ok blob =>
      simp only [processGroup, h, List.length_cons]
      have := ih (url + 1)
      omega
    | error e =>
      simp only [processGroup, h, List.length_cons]
      have := ih url
      omega

theorem processGroup_names_perm (respond : JSFile → Except String (List Nat)) (url : Nat)
    (batch : List JSFile) :
    ((processGroup respond url batch).converted.map (·.originalName)
      ++ (processGroup respond url batch).failed.map (·.originalName)).Perm
      (batch.map (·.name)) := by
  induction batch generalizing url with
  | nil => simp [processGroup]
  | cons f fs ih =>
    cases h : respond f with
    | ok blob =>
      simp only [processGroup, h, List.map_cons, List.cons_append]
      exact (ih (url + 1)).cons f.name
    | error e =>
      simp only [processGroup, h, List.map_cons]
      exact List.perm_middle.trans ((ih url).cons f.name)

theorem processGroup_failed_mem (respond : JSFile → Except String (List Nat)) (url : Nat)
    (batch : List JSFile) (f : JSFile) (e : String)
    (hf : f ∈ batch) (he : respond f = .error e) :
    (⟨f.name, e⟩ : FailedConversion) ∈ (processGroup respond url batch).failed := by
  induction batch generalizing url with
  | nil => cases hf
  | cons g gs ih =>
    rcases List.mem_cons.mp hf with rfl | hmem
    · simp [processGroup, he]
    · cases h : respond g with
      | ok blob =>
        simp only [processGroup, h]
        exact ih (url + 1) hmem
      | error e2 =>
        simp only [processGroup, h]
        exact List.mem_cons_of_mem _ (ih url hmem)

/-! Lemmas about the whole group loop. -/

theorem processBatchFrom_length (respond : JSFile → Except String (List Nat))
    (total : Nat) : ∀ (url done : Nat) (pending : List JSFile),
    (processBatchFrom respond total url done pending).converted.length
      + (processBatchFrom respond total url done pending).failed.length
      = pending.length
  | url, done, [] => by simp [processBatchFrom]
  | url, done, [a] => by
    simpa [processBatchFrom] using processGroup_length respond url [a]
  | url, done, [a, b] => by
    simpa [processBatchFrom] using processGroup_length respond url [a, b]
  | url, done, a :: b :: c :: rest => by
    have ih := processBatchFrom_length respond total
      (processGroup respond url [a, b, c]).nextUrl (done + 3) rest
    have hg := processGroup_length respond url [a, b, c]
    simp only [List.length_cons, List.length_nil] at hg
    simp only [processBatchFrom, List.length_append, List.length_cons]
    omega

theorem append_perm_swap {α : Type _} (a b c d : List α) :
    ((a ++ b) ++ (c ++ d)).Perm ((a ++ c) ++ (b ++ d)) := by
  have h1 : (a ++ b) ++ (c ++ d) = a ++ ((b ++ c) ++ d) := by simp
  have h2 : (a ++ c) ++ (b ++ d) = a ++ ((c ++ b) ++ d) := by simp
  rw [h1, h2]
  exact List.Perm.append_left a (List.Perm.append_right d List.perm_append_comm)

theorem processBatchFrom_names_perm (respond : JSFile → Except String (List Nat))
    (total : Nat) : ∀ (url done : Nat) (pending : List JSFile),
    ((processBatchFrom respond total url done pending).converted.map (·.originalName)
      ++ (processBatchFrom respond total url done pending).failed.map (·.originalName)).Perm
      (pending.map (·.name))
  | url, done, [] => by simp [processBatchFrom]
  | url, done, [a] => by
    simpa [processBatchFrom] using processGroup_names_perm respond url [a]
  | url, done, [a, b] => by
    simpa [processBatchFrom] using processGroup_names_perm respond url [a, b]
  | url, done, a :: b :: c :: rest => by
    have ih := processBatchFrom_names_perm respond total
      (processGroup respond url [a, b, c]).nextUrl (done + 3) rest
    have hg := processGroup_names_perm respond url [a, b, c]
    simp only [processBatchFrom, List.map_append]
    have hEq : ([a, b, c].map (·.name)) ++ (rest.map (·.name))
        = (a :: b :: c :: rest).map (·.name) := by simp
    exact hEq ▸ ((append_perm_swap _ _ _ _).trans (hg.append ih))

theorem processBatchFrom_failed_mem (respond : JSFile → Except String (List Nat))
    (total : Nat) : ∀ (url done : Nat) (pending : List JSFile) (f : JSFile) (e : String),
    f ∈ pending → respond f = .error e →
    (⟨f.name, e⟩ : FailedConversion) ∈ (processBatchFrom respond total url done pending).failed
  | url, done, [], f, e => by intro hf _; cases hf
  | url, done, [a], f, e => by
    intro hf he
    simpa [processBatchFrom] using processGroup_failed_mem respond url [a] f e hf he
  | url, done, [a, b], f, e => by
    intro hf he
    simpa [processBatchFrom] using processGroup_failed_mem respond url [a, b] f e hf he
  | url, done, a :: b :: c :: rest, f, e => by
    intro hf he
    simp only [processBatchFrom, List.mem_append]
    simp only [List.mem_cons] at hf
    rcases hf with h | h | h | h
    · exact Or.inl (processGroup_failed_mem respond url [a, b, c] f e (by simp [h]) he)
    · exact Or.inl (processGroup_failed_mem respond url [a, b, c] f e (by simp [h]) he)
    · exact Or.inl (processGroup_failed_mem respond url [a, b, c] f e (by simp [h]) he)
    · exact Or.inr (processBatchFrom_failed_mem respond total
        (processGroup respond url [a, b, c]).nextUrl (done + 3) rest f e h he)

/-! Lemmas about the progress trace. -/

theorem progressValue_mono (total : Nat) {c d : Nat} (h : c ≤ d) :
    progressValue total c ≤ progressValue total d := by
  unfold progressValue
  rcases Nat.eq_zero_or_pos total with h0 | h0
  · simp [h0]
  · have ht : (0 : ℚ) < (total : ℚ) := by exact_mod_cast h0
    have h1 : (c : ℚ) / (total : ℚ) ≤ (d : ℚ) / (total : ℚ) :=
      (div_le_div_iff_of_pos_right ht).mpr (by exact_mod_cast h)
    exact min_le_min (by linarith) le_rfl

theorem progressValue_full (total : Nat) (h : 0 < total) :
    progressValue total total = 100 := by
  unfold progressValue
  have ht : (total : ℚ) ≠ 0 := by exact_mod_cast h.ne'
  rw [div_self ht]
  norm_num

theorem processBatchFrom_progress_lb (respond : JSFile → Except String (List Nat))
    (total : Nat) : ∀ (url done : Nat) (pending : List JSFile),
    ∀ q ∈ (processBatchFrom respond total url done pending).progressUpdates,
      progressValue total done ≤ q
  | url, done, [] => by simp [processBatchFrom]
  | url, done, [a] => by
    simp only [processBatchFrom, List.mem_singleton]
    rintro q rfl
    exact progressValue_mono total (Nat.le_succ done)
  | url, done, [a, b] => by
    simp only [processBatchFrom, List.mem_singleton]
    rintro q rfl
    exact progressValue_mono total (by omega)
  | url, done, a :: b :: c :: rest => by
    simp only [processBatchFrom, List.mem_cons]
    rintro q (rfl | hq)
    · exact progressValue_mono total (by omega)
    · exact le_trans (progressValue_mono total (by omega))
        (processBatchFrom_progress_lb respond total
          (processGroup respond url [a, b, c]).nextUrl (done + 3) rest q hq)

theorem processBatchFrom_progress_chain (respond : JSFile → Except String (List Nat))
    (total : Nat) : ∀ (url done : Nat) (pending : List JSFile),
    ((processBatchFrom respond total url done pending).progressUpdates).Chain' (· ≤ ·)
  | url, done, [] => by simp [processBatchFrom]
  | url, done, [a] => by simp [processBatchFrom]
  | url, done, [a, b] => by simp [processBatchFrom]
  | url, done, a :: b :: c :: rest => by
    simp only [processBatchFrom]
    rw [List.chain'_cons']
    refine ⟨?_, processBatchFrom_progress_chain respond total
      (processGroup respond url [a, b, c]).nextUrl (done + 3) rest⟩
    intro y hy
    exact processBatchFrom_progress_lb respond total
      (processGroup respond url [a, b, c]).nextUrl (done + 3) rest y
      (List.mem_of_mem_head? hy)

theorem processBatchFrom_trace_ne_nil (respond : JSFile → Except String (List Nat))
    (total : Nat) : ∀ (url done : Nat) (pending : List JSFile), pending ≠ [] →
    (processBatchFrom respond total url done pending).progressUpdates ≠ []
  | url, done, [], h => absurd rfl h
  | url, done, [a], _ => by simp [processBatchFrom]
  | url, done, [a, b], _ => by simp [processBatchFrom]
  | url, done, a :: b :: c :: rest, _ => by simp [processBatchFrom]

theorem getLastD_of_ne_nil {α : Type _} : ∀ (l : List α), l ≠ [] →
    ∀ (d₁ d₂ : α), l.getLastD d₁ = l.getLastD d₂
  | [], h => absurd rfl h
  | [a], _ => by simp
  | a :: b :: l, _ => by
    intro d₁ d₂
    simp only [List.getLastD_cons]

theorem processBatchFrom_progress_last (respond : JSFile → Except String (List Nat))
    (total : Nat) : ∀ (url done : Nat) (pending : List JSFile), pending ≠ [] →
    done + pending.length = total → 0 < total →
    ((processBatchFrom respond total url done pending).progressUpdates).getLastD 0 = 100
  | url, done, [], h, _, _ => absurd rfl h
  | url, done, [a], _, htot, hpos => by
    have h1 : done + 1 = total := by simpa using htot
    simp only [processBatchFrom, h1, progressValue_full total hpos]
    rfl
  | url, done, [a, b], _, htot, hpos => by
    have h2 : done + 2 = total := by simpa using htot
    simp only [processBatchFrom, h2, progressValue_full total hpos]
    rfl
  | url, done, a :: b :: c :: rest, _, htot, hpos => by
    simp only [processBatchFrom, List.getLastD_cons]
    rcases eq_or_ne rest [] with hrest | hrest
    · subst hrest
      have h3 : done + 3 = total := by simpa using htot
      simp only [processBatchFrom, h3, progressValue_full total hpos]
      rfl
    · have hne := processBatchFrom_trace_ne_nil respond total
        (processGroup respond url [a, b, c]).nextUrl (done + 3) rest hrest
      rw [getLastD_of_ne_nil _ hne _ 0]
      exact processBatchFrom_progress_last respond total
        (processGroup respond url [a, b, c]).nextUrl (done + 3) rest hrest
        (by simp at htot; omega) hpos

theorem processBatchFrom_trace_formula (respond : JSFile → Except String (List Nat))
    (total : Nat) : ∀ (url done : Nat) (pending : List JSFile),
    (processBatchFrom respond total url done pending).progressUpdates
      = (List.range ((pending.length + 2) / 3)).map
          (fun g => progressValue total (done + min (3 * (g + 1)) pending.length))
  | url, done, [] => by simp [processBatchFrom]
  | url, done, [a] => by
    simp [processBatchFrom, List.range_succ]
  | url, done, [a, b] => by
    simp [processBatchFrom, List.range_succ]
  | url, done, a :: b :: c :: rest => by
    have ih := processBatchFrom_trace_formula respond total
      (processGroup respond url [a, b, c]).nextUrl (done + 3) rest
    simp only [processBatchFrom, ih, List.length_cons]
    have hdiv : (rest.length + 1 + 1 + 1 + 2) / 3 = (rest.length + 2) / 3 + 1 := by omega
    rw [hdiv, List.range_succ_eq_map, List.map_cons, List.map_map]
    have hhead : progressValue total (done + min (3 * (0 + 1)) (rest.length + 1 + 1 + 1))
        = progressValue total (done + 3) := by
      have : min (3 * (0 + 1)) (rest.length + 1 + 1 + 1) = 3 := by omega
      rw [this]
    rw [hhead]
    congr 1
    refine List.map_congr_left ?_
    intro g _
    simp only [Function.comp]
    have : done + min (3 * (g + 1 + 1)) (rest.length + 1 + 1 + 1)
        = done + 3 + min (3 * (g + 1)) rest.length := by omega
    rw [this]

/-! Projections of `handleBatchConvert` for a non-empty batch. -/

theorem handleBatchConvert_run (respond : JSFile → Except String (List Nat))
    (st : ConverterState) (h : st.selectedFiles ≠ []) :
    (handleBatchConvert respond st).convertedResults
        = (processBatchFrom respond st.selectedFiles.length st.nextUrl 0 st.selectedFiles).converted
    ∧ (handleBatchConvert respond st).failedConversions
        = (processBatchFrom respond st.selectedFiles.length st.nextUrl 0 st.selectedFiles).failed
    ∧ (handleBatchConvert respond st).progressUpdates
        = (processBatchFrom respond st.selectedFiles.length st.nextUrl 0
            st.selectedFiles).progressUpdates := by
  have hE : st.selectedFiles.isEmpty = false := by
    simpa [List.isEmpty_iff] using h
  simp only [handleBatchConvert, hE, Bool.false_eq_true, if_false]
  exact ⟨trivial, trivial, trivial⟩

theorem handleBatchConvert_revokedUrls (respond : JSFile → Except String (List Nat))
    (st : ConverterState) :
    (handleBatchConvert respond st).state.revokedUrls = st.revokedUrls := by
  simp only [handleBatchConvert,
    apply_ite (fun r : BatchRun => r.state.revokedUrls)]
  split
  · rfl
  · split
    · rfl
    · split <;> rfl

/-- C1: for every batch of N selected files (N ≥ 1) and every behaviour of
the per-file conversion requests, after `handleBatchConvert` completes the
total number of conversion outcomes — success outcomes plus failure
outcomes — equals N; no item's outcome is dropped regardless of which items
succeed or fail. -/
theorem c1_outcome_count_eq_batch_size (respond : JSFile → Except String (List Nat))
    (st : ConverterState) (h : 1 ≤ st.selectedFiles.length) :
    (handleBatchConvert respond st).convertedResults.length
      + (handleBatchConvert respond st).failedConversions.length
      = st.selectedFiles.length := by
  have hne : st.selectedFiles ≠ [] := by
    intro hE
    rw [hE] at h
    simp at h
  obtain ⟨hc, hf, -⟩ := handleBatchConvert_run respond st hne
  rw [hc, hf]
  exact processBatchFrom_length respond _ _ _ _

/-- Witness for C1: the two-file batch `[a.png, b.png]` where `b.png`
fails, evaluated concretely. -/
theorem c1_outcome_count_eq_batch_size_witness :
    (handleBatchConvert respondFailB stateAB).convertedResults.length
      + (handleBatchConvert respondFailB stateAB).failedConversions.length
      = stateAB.selectedFiles.length :=
  c1_outcome_count_eq_batch_size respondFailB stateAB (by decide)

/-- C2: for every batch and every item whose conversion request fails
(network error or non-ok response, both modelled by the oracle returning
`.error e`), that item yields a failure outcome naming its file, and every
other item of the batch — in the same group or later groups — still
produces its own outcome: the original names of all outcomes are a
permutation of the batch's file names. -/
theorem c2_per_item_failure_isolated (respond : JSFile → Except String (List Nat))
    (st : ConverterState) (f : JSFile) (e : String)
    (hf : f ∈ st.selectedFiles) (he : respond f = .error e) :
    ((⟨f.name, e⟩ : FailedConversion) ∈ (handleBatchConvert respond st).failedConversions)
    ∧ ((handleBatchConvert respond st).convertedResults.map (·.originalName)
        ++ (handleBatchConvert respond st).failedConversions.map (·.originalName)).Perm
        (st.selectedFiles.map (·.name)) := by
  have hne : st.selectedFiles ≠ [] := List.ne_nil_of_mem hf
  obtain ⟨hc, hfq, -⟩ := handleBatchConvert_run respond st hne
  rw [hc, hfq]
  exact ⟨processBatchFrom_failed_mem respond _ _ _ _ f e hf he,
    processBatchFrom_names_perm respond _ _ _ _⟩

/-- Witness for C2: in the batch `[a.png, b.png]` with `b.png` failing,
`b.png` yields a failure outcome and the outcome names cover the batch. -/
theorem c2_per_item_failure_isolated_witness :
    ((⟨"b.png", "Conversion failed for b.png"⟩ : FailedConversion)
        ∈ (handleBatchConvert respondFailB stateAB).failedConversions)
    ∧ ((handleBatchConvert respondFailB stateAB).convertedResults.map (·.originalName)
        ++ (handleBatchConvert respondFailB stateAB).failedConversions.map (·.originalName)).Perm
        (stateAB.selectedFiles.map (·.name)) :=
  c2_per_item_failure_isolated respondFailB stateAB fileB "Conversion failed for b.png"
    (by decide) rfl

/-- C6: for every non-empty batch of N items, `handleBatchConvert`
partitions it into consecutive groups of exactly 3 (the last group
possibly smaller) and after group g sets the progress to
`min(3*(g+1), N)/N * 100` clamped at 100 — there are ⌈N/3⌉ updates, group
g+1 is issued only after group g settled (the loop awaits each group), the
trace never decreases, and it ends at 100%. -/
theorem c6_grouping_progress_monotone (respond : JSFile → Except String (List Nat))
    (st : ConverterState) (h : st.selectedFiles ≠ []) :
    (handleBatchConvert respond st).progressUpdates
        = (List.range ((st.selectedFiles.length + 2) / 3)).map
            (fun g => progressValue st.selectedFiles.length
                (min (3 * (g + 1)) st.selectedFiles.length))
    ∧ (handleBatchConvert respond st).progressUpdates.Chain' (· ≤ ·)
    ∧ (handleBatchConvert respond st).progressUpdates.getLastD 0 = 100 := by
  obtain ⟨-, -, hp⟩ := handleBatchConvert_run respond st h
  refine ⟨?_, ?_, ?_⟩
  · rw [hp, processBatchFrom_trace_formula respond _ _ _ _]
    simp
  · rw [hp]
    exact processBatchFrom_progress_chain respond _ _ _ _
  · rw [hp]
    exact processBatchFrom_progress_last respond _ _ _ _ h (by simp)
      (List.length_pos.mpr h)

/-- Witness for C6: the trace of the two-file batch run is the single
update 100, trivially monotone and final. -/
theorem c6_grouping_progress_monotone_witness :
    (handleBatchConvert respondFailB stateAB).progressUpdates
        = (List.range ((stateAB.selectedFiles.length + 2) / 3)).map
            (fun g => progressValue stateAB.selectedFiles.length
                (min (3 * (g + 1)) stateAB.selectedFiles.length))
    ∧ (handleBatchConvert respondFailB stateAB).progressUpdates.Chain' (· ≤ ·)
    ∧ (handleBatchConvert respondFailB stateAB).progressUpdates.getLastD 0 = 100 :=
  c6_grouping_progress_monotone respondFailB stateAB (by decide)

/-! Lemmas about `handleFileSelect`. -/

theorem handleFileSelect_selectedFiles (st : ConverterState) (files : List JSFile) :
    (handleFileSelect st files).selectedFiles
      = if (classifyFiles files).1.length = 0 then st.selectedFiles
        else if (classifyFiles files).1.length > 100 then st.selectedFiles
        else (classifyFiles files).1 := by
  simp only [handleFileSelect, apply_ite (fun s : ConverterState => s.selectedFiles)]
  split
  · split <;> simp [ite_self]
  · split <;> simp [ite_self]

theorem handleFileSelect_convertedImages (st : ConverterState) (files : List JSFile) :
    (handleFileSelect st files).convertedImages = [] := by
  simp only [handleFileSelect, apply_ite (fun s : ConverterState => s.convertedImages)]
  split
  · split <;> simp [ite_self]
  · split <;> simp [ite_self]

theorem handleFileSelect_revokedUrls (st : ConverterState) (files : List JSFile) :
    (handleFileSelect st files).revokedUrls = st.revokedUrls := by
  simp only [handleFileSelect, apply_ite (fun s : ConverterState => s.revokedUrls)]
  split
  · split <;> simp [ite_self]
  · split <;> simp [ite_self]

theorem classifyFiles_valid_spec : ∀ (files : List JSFile) (g : JSFile),
    g ∈ (classifyFiles files).1 → isValidImageFile g = true ∧ g.size ≤ maxSize
  | [], g => by simp [classifyFiles]
  | f :: fs, g => by
    intro hg
    by_cases hv : isValidImageFile f = true
    · by_cases hs : f.size > maxSize
      · simp only [classifyFiles, hv, hs] at hg
        simp at hg
        exact classifyFiles_valid_spec fs g hg
      · simp only [classifyFiles, hv, hs] at hg
        simp at hg
        rcases hg with rfl | hg
        · exact ⟨hv, by omega⟩
        · exact classifyFiles_valid_spec fs g hg
    · simp only [classifyFiles, hv] at hg
      simp at hg
      exact classifyFiles_valid_spec fs g hg

theorem classifyFiles_valid_mem : ∀ (files : List JSFile) (f : JSFile),
    f ∈ files → isValidImageFile f = true → f.size ≤ maxSize →
    f ∈ (classifyFiles files).1
  | [], f => by simp
  | g :: fs, f => by
    intro hf hv hs
    rcases List.mem_cons.mp hf with rfl | hmem
    · simp [classifyFiles, hv, Nat.not_lt.mpr hs]
    · by_cases hv2 : isValidImageFile g = true
      · by_cases hs2 : g.size > maxSize
        · simp only [classifyFiles, hv2, hs2]
          simp
          exact classifyFiles_valid_mem fs f hmem hv hs
        · simp only [classifyFiles, hv2, hs2]
          simp
          exact Or.inr (classifyFiles_valid_mem fs f hmem hv hs)
      · simp only [classifyFiles, hv2]
        simp
        exact classifyFiles_valid_mem fs f hmem hv hs

theorem classifyFiles_oversized_mem : ∀ (files : List JSFile) (f : JSFile),
    f ∈ files → isValidImageFile f = true → maxSize < f.size →
    f.name ∈ (classifyFiles files).2.2
  | [], f => by simp
  | g :: fs, f => by
    intro hf hv hs
    rcases List.mem_cons.mp hf with rfl | hmem
    · simp [classifyFiles, hv, hs]
    · by_cases hv2 : isValidImageFile g = true
      · by_cases hs2 : g.size > maxSize
        · simp only [classifyFiles, hv2, hs2]
          simp
          exact Or.inr (classifyFiles_oversized_mem fs f hmem hv hs)
        · simp only [classifyFiles, hv2, hs2]
          simp
          exact classifyFiles_oversized_mem fs f hmem hv hs
      · simp only [classifyFiles, hv2]
        simp
        exact classifyFiles_oversized_mem fs f hmem hv hs

/-- Counterexample to C5 as stated: a file list with 101 valid entries and
one invalid entry. Valid files remain (101 of them), yet `handleFileSelect`
leaves the pending batch unreplaced and rejects the whole ingestion with
the file-count error — the batch-count ceiling is not a per-entry check
and valid entries are not accepted. -/
theorem c5_batch_ceiling_counterexample :
    (classifyFiles files102).1.length = 101
    ∧ (handleFileSelect emptyState files102).selectedFiles = emptyState.selectedFiles
    ∧ (handleFileSelect emptyState files102).error
        = "Too many files selected. Please select 100 files or fewer." :=
  ⟨by decide, by decide, by decide⟩

/-- C5 (amended): invalid and oversized entries are reported but do not
abort ingestion of the valid ones — every valid entry is accepted into the
new pending batch — provided at least 1 and at most 100 valid files
remain; `handleFileSelect` leaves the pending batch unreplaced both when
zero valid files remain and when more than 100 valid files remain. -/
theorem c5_partial_acceptance (st : ConverterState) (files : List JSFile) :
    (1 ≤ (classifyFiles files).1.length → (classifyFiles files).1.length ≤ 100 →
      (handleFileSelect st files).selectedFiles = (classifyFiles files).1)
    ∧ ((classifyFiles files).1.length = 0 →
      (handleFileSelect st files).selectedFiles = st.selectedFiles)
    ∧ (100 < (classifyFiles files).1.length →
      (handleFileSelect st files).selectedFiles = st.selectedFiles) := by
  have h := handleFileSelect_selectedFiles st files
  refine ⟨?_, ?_, ?_⟩
  · intro h1 h2
    rw [h, if_neg (by omega), if_neg (by omega)]
  · intro h1
    rw [h, if_pos h1]
  · intro h1
    rw [h, if_neg (by omega), if_pos (by omega)]

/-- Witness for the amended C5: a mixed valid/invalid list is partially
accepted, an all-invalid list and a 101-valid-file list are both refused
without touching the batch. -/
theorem c5_partial_acceptance_witness :
    ((handleFileSelect emptyState [fileA, fileBad]).selectedFiles
        = (classifyFiles [fileA, fileBad]).1)
    ∧ (handleFileSelect emptyState [fileBad]).selectedFiles = emptyState.selectedFiles
    ∧ (handleFileSelect emptyState files102).selectedFiles = emptyState.selectedFiles :=
  ⟨(c5_partial_acceptance emptyState [fileA, fileBad]).1 (by decide) (by decide),
   (c5_partial_acceptance emptyState [fileBad]).2.1 (by decide),
   (c5_partial_acceptance emptyState files102).2.2 (by decide)⟩

/-- C9: for a supported-MIME file among the selected ones, a size exactly
at the 10MB ceiling is classified valid and lands in the accepted batch
(whenever the ingestion accepts at all), while a size one byte over the
ceiling is reported in the oversized list, never classified valid, and
never lands in the accepted batch. -/
theorem c9_size_boundary (st : ConverterState) (files : List JSFile) (f : JSFile)
    (hmem : f ∈ files) (hv : isValidImageFile f = true) :
    (f.size = maxSize → f ∈ (classifyFiles files).1)
    ∧ (f.size = maxSize → 1 ≤ (classifyFiles files).1.length →
        (classifyFiles files).1.length ≤ 100 →
        f ∈ (handleFileSelect st files).selectedFiles)
    ∧ (f.size = maxSize + 1 →
        f.name ∈ (classifyFiles files).2.2
        ∧ f ∉ (classifyFiles files).1
        ∧ (1 ≤ (classifyFiles files).1.length → (classifyFiles files).1.length ≤ 100 →
            f ∉ (handleFileSelect st files).selectedFiles)) := by
  have hsel := handleFileSelect_selectedFiles st files
  refine ⟨?_, ?_, ?_⟩
  · intro hs
    exact classifyFiles_valid_mem files f hmem hv (by omega)
  · intro hs h1 h2
    rw [hsel, if_neg (by omega), if_neg (by omega)]
    exact classifyFiles_valid_mem files f hmem hv (by omega)
  · intro hs
    have hnv : f ∉ (classifyFiles files).1 := by
      intro hcontra
      have := (classifyFiles_valid_spec files f hcontra).2
      omega
    refine ⟨classifyFiles_oversized_mem files f hmem hv (by omega), hnv, ?_⟩
    intro h1 h2
    rw [hsel, if_neg (by omega), if_neg (by omega)]
    exact hnv

/-- Witness for C9: with the two boundary files selected, the at-cap file
is accepted and the one-byte-over file is rejected. -/
theorem c9_size_boundary_witness :
    fileAtCap ∈ (classifyFiles [fileAtCap, fileOverCap]).1
    ∧ fileAtCap ∈ (handleFileSelect emptyState [fileAtCap, fileOverCap]).selectedFiles
    ∧ fileOverCap.name ∈ (classifyFiles [fileAtCap, fileOverCap]).2.2
    ∧ fileOverCap ∉ (classifyFiles [fileAtCap, fileOverCap]).1 :=
  ⟨(c9_size_boundary emptyState [fileAtCap, fileOverCap] fileAtCap (by decide) (by decide)).1
      (by decide),
   (c9_size_boundary emptyState [fileAtCap, fileOverCap] fileAtCap (by decide) (by decide)).2.1
      (by decide) (by decide) (by decide),
   ((c9_size_boundary emptyState [fileAtCap, fileOverCap] fileOverCap (by decide)
      (by decide)).2.2 (by decide)).1,
   ((c9_size_boundary emptyState [fileAtCap, fileOverCap] fileOverCap (by decide)
      (by decide)).2.2 (by decide)).2.1⟩

/-- Counterexample to C7 as stated: `handleFileSelect` (a new ingest)
replaces a result set holding the success outcome with object URL 0, yet
revokes nothing — the outcome is discarded with its handle unreleased. -/
theorem c7_replace_leaks_counterexample :
    stateWithResultA.convertedImages.map (·.convertedUrl) = [0]
    ∧ (handleFileSelect stateWithResultA [fileA]).convertedImages = []
    ∧ (handleFileSelect stateWithResultA [fileA]).revokedUrls = [] :=
  ⟨by decide, by decide, by decide⟩

/-- C7 (amended): `handleReset` releases the object URL of every success
outcome it discards, but the two operations that replace a previous result
set — a new ingest (`handleFileSelect`) and a new run
(`handleBatchConvert`) — release nothing: their revoked-handle set is
unchanged. -/
theorem c7_url_release_on_reset_only (st : ConverterState) (u : Nat)
    (respond : JSFile → Except String (List Nat)) (files : List JSFile) :
    (u ∈ st.convertedImages.map (·.convertedUrl) → u ∈ (handleReset st).revokedUrls)
    ∧ (handleFileSelect st files).revokedUrls = st.revokedUrls
    ∧ (handleBatchConvert respond st).state.revokedUrls = st.revokedUrls := by
  refine ⟨?_, handleFileSelect_revokedUrls st files, handleBatchConvert_revokedUrls respond st⟩
  intro hu
  simp only [handleReset]
  exact List.mem_append_right st.revokedUrls hu

/-- Witness for the amended C7 at the one-outcome state: reset revokes
handle 0, ingest and convert revoke nothing. -/
theorem c7_url_release_on_reset_only_witness :
    (0 ∈ (handleReset stateWithResultA).revokedUrls)
    ∧ (handleFileSelect stateWithResultA [fileA]).revokedUrls = stateWithResultA.revokedUrls
    ∧ (handleBatchConvert respondAll stateWithResultA).state.revokedUrls
        = stateWithResultA.revokedUrls :=
  ⟨(c7_url_release_on_reset_only stateWithResultA 0 respondAll [fileA]).1 (by decide),
   (c7_url_release_on_reset_only stateWithResultA 0 respondAll [fileA]).2.1,
   (c7_url_release_on_reset_only stateWithResultA 0 respondAll [fileA]).2.2⟩

/-! Lemmas about the shared naming rule and the archive. -/

theorem splitOnDot_no_dot : ∀ (cs : List Char), '.' ∉ cs → splitOnDot cs = [cs]
  | [], _ => rfl
  | c :: cs, h => by
    have hc : ¬ c = '.' := fun hEq => h (hEq ▸ List.mem_cons_self c cs)
    have ih := splitOnDot_no_dot cs (fun hm => h (List.mem_cons_of_mem c hm))
    simp only [splitOnDot, if_neg hc, ih]

theorem stripExtension_no_dot (name : String) (h : '.' ∉ name.toList) :
    stripExtension name = "" := by
  unfold stripExtension
  rw [splitOnDot_no_dot name.toList h]
  rfl

theorem downloadFileName_no_dot (name fmt : String) (h : '.' ∉ name.toList) :
    downloadFileName name fmt = "_converted." ++ fmt := by
  unfold downloadFileName
  rw [stripExtension_no_dot name h]
  rfl

theorem string_append_cancel_right (a b c : String) (h : a ++ c = b ++ c) : a = b := by
  have hd : a.data ++ c.data = b.data ++ c.data := by
    have h2 := congrArg String.data h
    simpa [String.data_append] using h2
  cases a
  cases b
  exact congrArg String.mk (List.append_cancel_right hd)

theorem downloadFileName_inj (fmt : String) {a b : String}
    (h : downloadFileName a fmt = downloadFileName b fmt) :
    stripExtension a = stripExtension b := by
  unfold downloadFileName at h
  have h1 := string_append_cancel_right _ _ _ h
  exact string_append_cancel_right _ _ _ h1

theorem zipAddFile_fresh (entries : List ZipEntry) (n : String) (d : List Nat)
    (h : n ∉ entries.map (·.name)) :
    zipAddFile entries n d = entries ++ [⟨n, d⟩] := by
  unfold zipAddFile
  rw [if_neg]
  intro hc
  simp only [List.any_eq_true, decide_eq_true_eq] at hc
  rcases hc with ⟨e, he, hn⟩
  exact h (List.mem_map.mpr ⟨e, he, hn⟩)

theorem zip_fold_fresh (fmt : String) : ∀ (imgs : List ConvertedImage) (acc : List ZipEntry),
    ((imgs.map (fun i => downloadFileName i.originalName fmt)).Nodup) →
    (∀ i ∈ imgs, downloadFileName i.originalName fmt ∉ acc.map (·.name)) →
    imgs.foldl (fun a i => zipAddFile a (downloadFileName i.originalName fmt) i.convertedBlob) acc
      = acc ++ imgs.map
          (fun i => (⟨downloadFileName i.originalName fmt, i.convertedBlob⟩ : ZipEntry))
  | [], acc => by simp
  | i :: imgs, acc => by
    intro hnodup hfresh
    rw [List.foldl_cons,
      zipAddFile_fresh acc _ _ (hfresh i (List.mem_cons_self i imgs))]
    rw [List.map_cons] at hnodup
    have hcons := List.nodup_cons.mp hnodup
    have hnodup2 := hcons.2
    have hhead := hcons.1
    have hfresh2 : ∀ j ∈ imgs, downloadFileName j.originalName fmt
        ∉ (acc ++ [(⟨downloadFileName i.originalName fmt, i.convertedBlob⟩ : ZipEntry)]).map
            (·.name) := by
      intro j hj
      simp only [List.map_append, List.mem_append]
      rintro (hin | hin)
      · exact hfresh j (List.mem_cons_of_mem i hj) hin
      · simp at hin
        exact hhead (hin ▸ List.mem_map.mpr ⟨j, hj, rfl⟩)
    rw [zip_fold_fresh fmt imgs _ hnodup2 hfresh2]
    simp

/-- Counterexample to C4 as stated: the success set for `a.png` and `a.jpg`
has pairwise-distinct original names, but both strip to the base `a`, so
the second ZIP entry overwrites the first and the archive holds 1 entry
instead of 2. -/
theorem c4_name_collision_counterexample :
    (stateCollide.convertedImages.map (·.originalName)).Nodup
    ∧ stateCollide.convertedImages.length = 2
    ∧ (handleZipDownload stateCollide).map (fun p => p.1.entries.length) = some 1 :=
  ⟨by decide, by decide, by decide⟩

/-- C4 (amended): for every set of K success outcomes (K ≥ 1) whose
extension-stripped base names are pairwise distinct, `handleZipDownload`
produces one archive under the fixed `converted_images` subfolder whose
entries are exactly the K outcomes in order, each named
`{stripExtension(originalName)}_converted.{targetFormat}` with no two
entries sharing a name, and one download named
`converted_images_{targetFormat}.zip`. -/
theorem c4_archive_structure (st : ConverterState)
    (hK : st.convertedImages ≠ [])
    (hnodup : (st.convertedImages.map (fun i => stripExtension i.originalName)).Nodup) :
    handleZipDownload st
      = some (⟨"converted_images",
          st.convertedImages.map
            (fun i => (⟨downloadFileName i.originalName st.targetFormat,
                i.convertedBlob⟩ : ZipEntry))⟩,
        "converted_images_" ++ st.targetFormat ++ ".zip")
    ∧ (st.convertedImages.map
        (fun i => (⟨downloadFileName i.originalName st.targetFormat,
            i.convertedBlob⟩ : ZipEntry))).length = st.convertedImages.length
    ∧ ((st.convertedImages.map
        (fun i => (⟨downloadFileName i.originalName st.targetFormat,
            i.convertedBlob⟩ : ZipEntry))).map (·.name)).Nodup := by
  have hE : st.convertedImages.isEmpty = false := by
    simpa [List.isEmpty_iff] using hK
  have hinj : Function.Injective
      (fun s => (s ++ "_converted.") ++ st.targetFormat : String → String) := by
    intro a b hab
    exact string_append_cancel_right _ _ _ (string_append_cancel_right _ _ _ hab)
  have hnames : (st.convertedImages.map
      (fun i => downloadFileName i.originalName st.targetFormat)).Nodup := by
    have hcomp : st.convertedImages.map
        (fun i => downloadFileName i.originalName st.targetFormat)
        = (st.convertedImages.map (fun i => stripExtension i.originalName)).map
            (fun s => (s ++ "_converted.") ++ st.targetFormat) := by
      rw [List.map_map]
      rfl
    rw [hcomp]
    exact hnodup.map hinj
  refine ⟨?_, by simp, ?_⟩
  · simp only [handleZipDownload, hE, Bool.false_eq_true, if_false]
    rw [zip_fold_fresh st.targetFormat st.convertedImages [] hnames (by simp)]
    rw [List.nil_append]
  · rw [List.map_map]
    exact hnames

/-- Witness for the amended C4: the two-outcome set `[a.png, b.png]` (with
distinct bases `a` and `b`) packs into a two-entry archive. -/
theorem c4_archive_structure_witness :
    handleZipDownload { emptyState with convertedImages := [imgDotA, ⟨"b.png", [9], 1⟩] }
      = some (⟨"converted_images",
          [⟨downloadFileName "a.png" "webp", [1]⟩,
           ⟨downloadFileName "b.png" "webp", [9]⟩]⟩,
        "converted_images_" ++ "webp" ++ ".zip") :=
  (c4_archive_structure { emptyState with convertedImages := [imgDotA, ⟨"b.png", [9], 1⟩] }
    (by decide) (by decide)).1

/-- C10: for every success outcome whose original name contains no dot,
the extension-stripping step yields the empty base, so the single-download
filename and the archive entry both use the degenerate name
`_converted.{targetFormat}` instead of preserving the original name. -/
theorem c10_no_dot_degenerate_name (img : ConvertedImage) (fmt : String)
    (h : '.' ∉ img.originalName.toList) :
    (handleSingleDownload img fmt).1 = "_converted." ++ fmt
    ∧ (∀ st : ConverterState, st.convertedImages = [img] → st.targetFormat = fmt →
        handleZipDownload st
          = some (⟨"converted_images", [⟨"_converted." ++ fmt, img.convertedBlob⟩]⟩,
              "converted_images_" ++ fmt ++ ".zip")) := by
  constructor
  · show downloadFileName img.originalName fmt = "_converted." ++ fmt
    exact downloadFileName_no_dot _ fmt h
  · intro st h1 h2
    simp only [handleZipDownload, h1, h2, List.isEmpty_cons, Bool.false_eq_true, if_false,
      List.foldl_cons, List.foldl_nil, zipAddFile, List.any_nil, List.nil_append,
      downloadFileName_no_dot img.originalName fmt h]

/-- Witness for C10 at the dotless name `photo`. -/
theorem c10_no_dot_degenerate_name_witness :
    (handleSingleDownload imgNoDot "webp").1 = "_converted." ++ "webp"
    ∧ handleZipDownload { emptyState with convertedImages := [imgNoDot], targetFormat := "webp" }
        = some (⟨"converted_images", [⟨"_converted." ++ "webp", imgNoDot.convertedBlob⟩]⟩,
            "converted_images_" ++ "webp" ++ ".zip") :=
  ⟨(c10_no_dot_degenerate_name imgNoDot "webp" (by decide)).1,
   (c10_no_dot_degenerate_name imgNoDot "webp" (by decide)).2
     { emptyState with convertedImages := [imgNoDot], targetFormat := "webp" } rfl rfl⟩

/-! Lemmas about the server handler. -/

theorem charsStartWith_append : ∀ (l t : List Char), charsStartWith l (l ++ t) = true
  | [], _ => rfl
  | c :: l, t => by
    simp [charsStartWith, charsStartWith_append l t]

theorem charsContain_of_startWith : ∀ (p hay : List Char),
    charsStartWith p hay = true → charsContain p hay = true
  | p, [] => by
    intro h
    simpa [charsContain] using h
  | p, h :: hs => by
    intro hsw
    simp [charsContain, hsw]

theorem containsSub_append_right (a b : String) : containsSub (a ++ b) a = true := by
  unfold containsSub
  have hdata : (a ++ b).toList = a.toList ++ b.toList := String.data_append a b
  rw [hdata]
  exact charsContain_of_startWith _ _ (charsStartWith_append _ _)

theorem postErrorResponse_sharp (env m : String) :
    (postErrorResponse env ("Sharp processing failed: " ++ m)).status = 400
    ∧ ∃ emsg, (postErrorResponse env ("Sharp processing failed: " ++ m)).body
        = .jsonError emsg none
      ∧ emsg ∈ ["Unsupported image format. Please upload a valid image file.",
          "Invalid or corrupted image file. Please try a different image.",
          "Image processing failed. The image may be corrupted or in an unsupported format."] := by
  have hpre : ("Sharp processing failed: " : String) = "Sharp processing failed" ++ ": " := by
    decide
  have h3 : containsSub ("Sharp processing failed: " ++ m) "Sharp processing failed" = true := by
    rw [hpre, String.append_assoc]
    exact containsSub_append_right _ _
  unfold postErrorResponse
  by_cases h1 : containsSub ("Sharp processing failed: " ++ m)
      "Input file contains unsupported image format" = true
  · rw [if_pos h1]
    exact ⟨rfl, _, rfl, by simp⟩
  · by_cases h2 : containsSub ("Sharp processing failed: " ++ m)
        "Input buffer contains unsupported image format" = true
    · rw [if_neg h1, if_pos h2]
      exact ⟨rfl, _, rfl, by simp⟩
    · rw [if_neg h1, if_neg h2, if_pos h3]
      exact ⟨rfl, _, rfl, by simp⟩

theorem POST_transcode_error_eq (env : String) (sharp : SharpModel) (req : ApiRequest)
    (f : JSFile) (mf msg : String)
    (hct : hasMultipartData req.contentType = true)
    (himg : req.image = some (.file f))
    (hfmt : serverSupportedFormats.contains (lowerAscii (effectiveFormat req.format)) = true)
    (hmeta : sharp.metadata = .ok (some mf))
    (htr : sharp.transcode (lowerAscii (effectiveFormat req.format)) = .error msg) :
    POST env sharp req = postErrorResponse env ("Sharp processing failed: " ++ msg) := by
  have hmem : lowerAscii (effectiveFormat req.format) ∈ serverSupportedFormats := by
    simpa using hfmt
  have hfour : lowerAscii (effectiveFormat req.format) = "jpeg"
      ∨ lowerAscii (effectiveFormat req.format) = "jpg"
      ∨ lowerAscii (effectiveFormat req.format) = "png"
      ∨ lowerAscii (effectiveFormat req.format) = "webp" := by
    simpa [serverSupportedFormats] using hmem
  simp only [POST, hct, himg, hmeta, htr, hfmt, imageFieldMissing, Bool.true_eq_false,
    Bool.false_eq_true, if_false, if_pos hfour]

/-- Counterexample to C3 as stated: a request that passes all validation
but whose transcode step throws is answered with status 400 (the
`Sharp processing failed` branch of the catch block), not 500. -/
theorem c3_transcode_error_counterexample :
    (POST "production" sharpBoom reqOK).status = 400
    ∧ (POST "production" sharpBoom reqOK).status ≠ 500
    ∧ (POST "production" sharpBoom reqOK).body
        = .jsonError
            "Image processing failed. The image may be corrupted or in an unsupported format."
            none :=
  ⟨by decide, by decide, by decide⟩

/-- C3 (amended): for every request that passes validation (multipart
content type, binary image field, supported target format, decodable
image) and whose transcode step throws, the handler responds with status
400 and one of three fixed generic processing-failure messages with no
details field — the response never echoes the library's error text and is
never a 500. -/
theorem c3_transcode_error_generic_400 (env : String) (sharp : SharpModel)
    (req : ApiRequest) (f : JSFile) (mf msg : String)
    (hct : hasMultipartData req.contentType = true)
    (himg : req.image = some (.file f))
    (hfmt : serverSupportedFormats.contains (lowerAscii (effectiveFormat req.format)) = true)
    (hmeta : sharp.metadata = .ok (some mf))
    (htr : sharp.transcode (lowerAscii (effectiveFormat req.format)) = .error msg) :
    (POST env sharp req).status = 400
    ∧ ∃ emsg, (POST env sharp req).body = .jsonError emsg none
      ∧ emsg ∈ ["Unsupported image format. Please upload a valid image file.",
          "Invalid or corrupted image file. Please try a different image.",
          "Image processing failed. The image may be corrupted or in an unsupported format."] := by
  rw [POST_transcode_error_eq env sharp req f mf msg hct himg hfmt hmeta htr]
  exact postErrorResponse_sharp env msg

/-- Witness for the amended C3 at the concrete failing Sharp oracle. -/
theorem c3_transcode_error_generic_400_witness :
    (POST "development" sharpBoom reqOK).status = 400
    ∧ ∃ emsg, (POST "development" sharpBoom reqOK).body = .jsonError emsg none
      ∧ emsg ∈ ["Unsupported image format. Please upload a valid image file.",
          "Invalid or corrupted image file. Please try a different image.",
          "Image processing failed. The image may be corrupted or in an unsupported format."] :=
  c3_transcode_error_generic_400 "development" sharpBoom reqOK fileA "png" "boom"
    (by decide) rfl (by decide) rfl rfl

/-- Counterexample to C8 as stated: a request whose `format` field is
present with the empty-string value — which is (case-insensitively) not
one of jpeg, jpg, png, webp — is not rejected with 400: the falsy check
`format || "webp"` silently falls back to webp and the request succeeds. -/
theorem c8_empty_format_counterexample :
    reqEmptyFmt.format = some ""
    ∧ serverSupportedFormats.contains (lowerAscii "") = false
    ∧ (POST "production" sharpOK reqEmptyFmt).status = 200 :=
  ⟨rfl, by decide, by decide⟩

/-- C8 (amended): for every request whose `format` field is present with a
nonempty value that is (case-insensitively) not one of jpeg, jpg, png,
webp, the handler responds 400 with an error payload; for every request
whose `format` field is absent it behaves exactly as if the field were
`webp` (and the empty string likewise falls back to webp). -/
theorem c8_format_reject_and_default (env : String) (sharp : SharpModel) (req : ApiRequest) :
    (∀ s, req.format = some s → s ≠ "" →
        serverSupportedFormats.contains (lowerAscii s) = false →
        (POST env sharp req).status = 400
        ∧ ∃ emsg dets, (POST env sharp req).body = .jsonError emsg dets)
    ∧ (req.format = none →
        POST env sharp req = POST env sharp { req with format := some "webp" }) := by
  constructor
  · intro s hs hne hbad
    cases hct : hasMultipartData req.contentType with
    | false =>
      simp only [POST, hct]
      exact ⟨rfl, _, _, rfl⟩
    | true =>
      cases himg : imageFieldMissing req.image with
      | true =>
        simp only [POST, hct, himg, Bool.true_eq_false, if_false, if_pos rfl]
        exact ⟨rfl, _, _, rfl⟩
      | false =>
        match hi : req.image with
        | none => rw [hi] at himg; simp [imageFieldMissing] at himg
        | some (.str s2) =>
          rw [hi] at himg
          simp only [POST, hct, himg, hi, Bool.true_eq_false, Bool.false_eq_true, if_false]
          exact ⟨trivial, _, _, rfl⟩
        | some (.file f) =>
          rw [hi] at himg
          have heff : effectiveFormat req.format = s := by
            rw [hs]
            simp [effectiveFormat, hne]
          simp only [POST, hct, himg, hi, heff, hbad, Bool.true_eq_false, Bool.false_eq_true,
            if_false, if_pos rfl]
          exact ⟨rfl, _, _, rfl⟩
  · intro hf
    obtain ⟨ct, img, fmt⟩ := req
    simp only at hf
    subst hf
    simp only [POST, effectiveFormat]
    norm_num

/-- Witness for the amended C8: the unsupported target `gif` is rejected
with 400, and the request without a `format` field equals the same request
with `format = webp`. -/
theorem c8_format_reject_and_default_witness :
    ((POST "production" sharpOK reqBadFmt).status = 400
      ∧ ∃ emsg dets, (POST "production" sharpOK reqBadFmt).body = .jsonError emsg dets)
    ∧ POST "production" sharpOK ⟨some "multipart/form-data", some (.file fileA), none⟩
        = POST "production" sharpOK ⟨some "multipart/form-data", some (.file fileA), some "webp"⟩ :=
  ⟨(c8_format_reject_and_default "production" sharpOK reqBadFmt).1 "gif" rfl (by decide)
      (by decide),
   (c8_format_reject_and_default "production" sharpOK
      ⟨some "multipart/form-data", some (.file fileA), none⟩).2 rfl⟩
